import Mathlib

/-!
Shallow embedding of the `watch` filesystem-notification library
(`src/watch.h`): the portable event record `directory_event`, the
inotify-backed pool `inotify_watch_pool`, the `generic_directory_watch`
front-end with its ticket cursor and dead/recreate lifecycle, and the
`generic_file_watcher` name filter.

Modelling conventions:
- The pool's `events_` map (`std::unordered_map<int, std::vector<...>>`
  whose `operator[]` default-constructs an empty vector for a missing key)
  is a total function `Int → List directory_event`; default-insertion of an
  empty queue is invisible at this level because no pool operation ever
  queries key membership or erases a key.
- Kernel interactions are explicit inputs: the batch of raw
  `inotify_event` records drained by one `read` in `Update` is a
  `List inotify_event` argument (a failed read, `len == -1`, is the empty
  batch), and the result of `inotify_add_watch` in `Create` is a pair
  (returned handle, `errno` value) supplied by the caller.
- Calls to `inotify_rm_watch` have no effect on the pool's queues; the
  model records them in a trace field `rmCalls` so that "Destroy on the
  sentinel handle makes no kernel call" is statable.
- `int`-vs-`size_t` comparisons (`Ticket >= vec.size()` and
  `vec.at(Ticket)`) convert the `int` ticket to a 64-bit unsigned value;
  `sizeT` models that conversion.
-/

/-- The C++ enum `watch::directory_event::type`. -/
inductive directory_event_type where
  | watch_directory_destroyed
  | file_created
  | file_deleted
  | file_modified
deriving DecidableEq

/-- The C++ struct `watch::directory_event`; the field `Type'` models the
C++ field `Type` (renamed because `Type` is a Lean keyword). -/
structure directory_event where
  Type' : directory_event_type
  Name : String
deriving DecidableEq

/-- The C++ default constructor `directory_event()` yields
`{watch_directory_destroyed, ""}`. -/
instance : Inhabited directory_event :=
  ⟨⟨directory_event_type.watch_directory_destroyed, ""⟩⟩

/-- Linux `<sys/inotify.h>` flag. -/
def IN_MODIFY : Nat := 0x00000002

/-- Linux `<sys/inotify.h>` flag. -/
def IN_CLOSE_WRITE : Nat := 0x00000008

/-- Linux `<sys/inotify.h>` flag. -/
def IN_MOVED_FROM : Nat := 0x00000040

/-- Linux `<sys/inotify.h>` flag. -/
def IN_MOVED_TO : Nat := 0x00000080

/-- Linux `<sys/inotify.h>` flag. -/
def IN_CREATE : Nat := 0x00000100

/-- Linux `<sys/inotify.h>` flag. -/
def IN_DELETE : Nat := 0x00000200

/-- Linux `<sys/inotify.h>` flag. -/
def IN_UNMOUNT : Nat := 0x00002000

/-- Linux `<sys/inotify.h>` flag. -/
def IN_Q_OVERFLOW : Nat := 0x00004000

/-- Linux `<sys/inotify.h>` flag. -/
def IN_IGNORED : Nat := 0x00008000

/-- Models `inotify_watch_pool::DeadFlags = IN_IGNORED | IN_Q_OVERFLOW | IN_UNMOUNT`. -/
def DeadFlags : Nat := IN_IGNORED ||| IN_Q_OVERFLOW ||| IN_UNMOUNT

/-- Models `inotify_watch_pool::FileCreatedFlags = IN_CREATE | IN_MOVED_TO`. -/
def FileCreatedFlags : Nat := IN_CREATE ||| IN_MOVED_TO

/-- Models `inotify_watch_pool::FileDeletedFlags = IN_MOVED_FROM | IN_DELETE`. -/
def FileDeletedFlags : Nat := IN_MOVED_FROM ||| IN_DELETE

/-- Models `inotify_watch_pool::FileModifiedFlags = IN_MODIFY | IN_CLOSE_WRITE`. -/
def FileModifiedFlags : Nat := IN_MODIFY ||| IN_CLOSE_WRITE

/-- One raw kernel notification record (`struct inotify_event`): watch
descriptor `wd`, flag bitmask `mask`, entry name `name`. -/
structure inotify_event where
  wd : Int
  mask : Nat
  name : String
deriving DecidableEq

/-- State of `watch_impl::inotify_watch_pool`: the per-handle queues
`events_`, plus a trace of the handles passed to `inotify_rm_watch`
(the kernel side effect of `Destroy`; it never touches the queues). -/
structure inotify_watch_pool where
  events_ : Int → List directory_event
  rmCalls : List Int

/-- A freshly constructed pool: `events_ = {}` (every queue empty),
no kernel removal calls made yet. -/
def inotify_watch_pool.init : inotify_watch_pool :=
  ⟨fun _ => [], []⟩

/-- Pointwise update of the queue map at one key (the effect of mutating
`events_[wd]` through the reference returned by `operator[]`). -/
def updateQ (f : Int → List directory_event) (k : Int)
    (v : List directory_event) : Int → List directory_event :=
  fun x => if x = k then v else f x

/-- Models `inotify_watch_pool::ParseEvent`: classify one raw notification and
append the portable event (if any) to the queue of its `wd`.
Precedence: DeadFlags (append a default-constructed event, i.e.
`{watch_directory_destroyed, ""}`), else created, else deleted, else
modified, else append nothing. -/
def inotify_watch_pool.ParseEvent (p : inotify_watch_pool)
    (event : inotify_event) : inotify_watch_pool :=
  let vec := p.events_ event.wd
  if event.mask &&& DeadFlags ≠ 0 then
    { p with events_ := updateQ p.events_ event.wd (vec ++ [⟨directory_event_type.watch_directory_destroyed, ""⟩]) }
  else if event.mask &&& FileCreatedFlags ≠ 0 then
    { p with events_ := updateQ p.events_ event.wd (vec ++ [⟨directory_event_type.file_created, event.name⟩]) }
  else if event.mask &&& FileDeletedFlags ≠ 0 then
    { p with events_ := updateQ p.events_ event.wd (vec ++ [⟨directory_event_type.file_deleted, event.name⟩]) }
  else if event.mask &&& FileModifiedFlags ≠ 0 then
    { p with events_ := updateQ p.events_ event.wd (vec ++ [⟨directory_event_type.file_modified, event.name⟩]) }
  else p

/-- Models `inotify_watch_pool::Update`: drain the batch of raw notifications the
non-blocking `read` returned this call (empty when `len == -1`, i.e. a
failed or would-block read) and classify each in arrival order. -/
def inotify_watch_pool.Update (p : inotify_watch_pool)
    (batch : List inotify_event) : inotify_watch_pool :=
  batch.foldl inotify_watch_pool.ParseEvent p

/-- Models `inotify_watch_pool::create_result`. `Ticket` has the vector's
`size_type`. -/
structure create_result where
  Error : Int
  Handle : Int
  Ticket : Nat
deriving DecidableEq

/-- Models `inotify_watch_pool::Create`: the kernel's `inotify_add_watch` response
is the pair (`handle`, `errnoVal`). Returns
`{handle == -1 ? errno : 0, handle, events_[handle].size()}`; the only
mutation of the pool is `operator[]`'s default-insertion of an empty
queue, invisible in the total-function model, so the pool comes back
unchanged. -/
def inotify_watch_pool.Create (p : inotify_watch_pool) (_file : String)
    (handle : Int) (errnoVal : Int) : create_result × inotify_watch_pool :=
  ({ Error := if handle = -1 then errnoVal else 0
    , Handle := handle
    , Ticket := (p.events_ handle).length }, p)

/-- Models `inotify_watch_pool::Destroy`: early-return on the sentinel `-1`
(no kernel call at all); otherwise call `inotify_rm_watch` (recorded in
the trace; its return value is ignored). The queues are never touched. -/
def inotify_watch_pool.Destroy (p : inotify_watch_pool) (id : Int) :
    inotify_watch_pool :=
  if id = -1 then p
  else { p with rmCalls := p.rmCalls ++ [id] }

/-- Models `inotify_watch_pool::GetEvents`: the full accumulated queue for a
handle (`events_[watch]`; a missing key default-creates an empty queue). -/
def inotify_watch_pool.GetEvents (p : inotify_watch_pool) (watch : Int) :
    List directory_event :=
  p.events_ watch

/-- State of `watch::generic_directory_watch` (instantiated at the inotify
pool): path, native handle (`-1` when never registered), `int` ticket
cursor, liveness flag. -/
structure generic_directory_watch where
  Path : String
  NativeHandle : Int
  Ticket : Int
  Dead : Bool
deriving DecidableEq

/-- The kernel's response to the `inotify_add_watch` performed by one
`Create` call: the returned handle plus the `errno` value. -/
structure RecreateEnv where
  handle : Int
  errnoVal : Int
deriving DecidableEq

/-- Models `generic_directory_watch::Destroy`: `Pool->Destroy(NativeHandle); Dead
= true;`. The stale `NativeHandle` and `Ticket` are kept. -/
def generic_directory_watch.Destroy (w : generic_directory_watch)
    (p : inotify_watch_pool) :
    generic_directory_watch × inotify_watch_pool :=
  ({ w with Dead := true }, p.Destroy w.NativeHandle)

/-- Models `generic_directory_watch::Recreate`: `Destroy()` then
`Pool->Create(Path)`; on `Error == 0` store the handle, set the ticket to
the returned queue length and clear `Dead`, otherwise stay dead. -/
def generic_directory_watch.Recreate (w : generic_directory_watch)
    (p : inotify_watch_pool) (env : RecreateEnv) :
    generic_directory_watch × inotify_watch_pool :=
  let wp := w.Destroy p
  let rp := wp.2.Create wp.1.Path env.handle env.errnoVal
  if rp.1.Error = 0 then
    ({ wp.1 with Dead := false, NativeHandle := rp.1.Handle, Ticket := (rp.1.Ticket : Int) }, rp.2)
  else (wp.1, rp.2)

/-- The `generic_directory_watch(path, pool*)` constructor: fields start as
`NativeHandle = -1, Ticket = -1, Dead = true`, then `Recreate()` runs. -/
def generic_directory_watch.construct (path : String)
    (p : inotify_watch_pool) (env : RecreateEnv) :
    generic_directory_watch × inotify_watch_pool :=
  generic_directory_watch.Recreate ⟨path, -1, -1, true⟩ p env

/-- The `int → size_t` conversion performed by `Ticket >= vec.size()` and
`vec.at(Ticket)` (64-bit `size_t`). -/
def sizeT (i : Int) : Nat :=
  (i % (2 ^ 64 : Int)).toNat

/-- The body of `generic_directory_watch::PollEvent` after the liveness
checks: `Update`, read `GetEvents(NativeHandle)`, compare the ticket with
the queue length (`int` converted to `size_t`), on success return
`vec.at(Ticket++)` and mark dead if the event is
`watch_directory_destroyed`. -/
def generic_directory_watch.drainStep (w : generic_directory_watch)
    (p : inotify_watch_pool) (batch : List inotify_event) :
    Option directory_event × generic_directory_watch × inotify_watch_pool :=
  let p2 := p.Update batch
  let vec := p2.GetEvents w.NativeHandle
  if sizeT w.Ticket ≥ vec.length then (none, w, p2)
  else
    let event := vec.getD (sizeT w.Ticket) default
    (some event,
      { w with Ticket := w.Ticket + 1, Dead := if event.Type' = directory_event_type.watch_directory_destroyed then true else w.Dead }, p2)

/-- Models `generic_directory_watch::PollEvent`: `if (Dead) Recreate(); if (Dead)
return false;` then the drain body. `env` is the kernel response for the
(at most one) `Create` this call can perform; `batch` what its one `read`
returns. The `Option` result models the `bool` return plus the out
parameter. -/
def generic_directory_watch.PollEvent (w : generic_directory_watch)
    (p : inotify_watch_pool) (env : RecreateEnv)
    (batch : List inotify_event) :
    Option directory_event × generic_directory_watch × inotify_watch_pool :=
  let wp := if w.Dead then w.Recreate p env else (w, p)
  if wp.1.Dead then (none, wp.1, wp.2)
  else generic_directory_watch.drainStep wp.1 wp.2 batch

/-- The separator test `*iter == '/' || *iter == '\\'`. -/
def isSepChar (c : Char) : Bool :=
  c = '/' || c = '\\'

/-- The reverse scan shared by `GetDirectory`/`GetFilename`: walk the
reversed character list; at the first separator return
`std::distance(dir.rbegin(), iter)`, i.e. the number of characters already
passed; `none` when no separator exists. -/
def sepScan : List Char → Nat → Option Nat
  | [], _ => none
  | c :: rest, d => if isSepChar c then some d else sepScan rest (d + 1)

/-- Models `generic_file_watcher::GetDirectory`: on finding the last separator at
reverse distance `d`, return `std::string(dir.begin(), dir.end() - d)`,
i.e. the prefix of length `|dir| - d` (it ends with that separator);
otherwise the empty string. -/
def generic_file_watcher.GetDirectory (dir : String) : String :=
  match sepScan dir.data.reverse 0 with
  | some d => String.mk (dir.data.take (dir.data.length - d))
  | none => ""

/-- Models `generic_file_watcher::GetFilename`: on finding the last separator at
reverse distance `d`, return `std::string(dir.end() - d, dir.end())`, i.e.
the suffix of length `d` after that separator; otherwise the empty
string. -/
def generic_file_watcher.GetFilename (dir : String) : String :=
  match sepScan dir.data.reverse 0 with
  | some d => String.mk (dir.data.drop (dir.data.length - d))
  | none => ""

/-- State of `watch::generic_file_watcher`: the inner directory watch and
the configured filename. -/
structure generic_file_watcher where
  DirectoryWatcher : generic_directory_watch
  Filename : String
deriving DecidableEq

/-- The `generic_file_watcher(dir, pool*)` constructor:
`DirectoryWatcher(GetDirectory(dir), ptr), Filename(GetFilename(dir))`. -/
def generic_file_watcher.construct (dir : String) (p : inotify_watch_pool)
    (env : RecreateEnv) : generic_file_watcher × inotify_watch_pool :=
  let wp := generic_directory_watch.construct
    (generic_file_watcher.GetDirectory dir) p env
  (⟨wp.1, generic_file_watcher.GetFilename dir⟩, wp.2)

/-- The kernel inputs consumed by one inner `PollEvent` call (one `Create`
response and one `read` batch). -/
structure PollEnv where
  renv : RecreateEnv
  batch : List inotify_event
deriving DecidableEq

/-- Models `generic_file_watcher::PollEvent`: loop pulling from the inner
directory watch until an event whose `Name` equals `Filename` is found
(return it) or the inner watch reports none (return none). Each loop
iteration is one inner call and consumes one entry of the environment
list; an exhausted list models the point where the inner watch would keep
reporting no event. -/
def generic_file_watcher.PollEvent :
    generic_file_watcher → inotify_watch_pool → List PollEnv →
    Option directory_event × generic_file_watcher × inotify_watch_pool
  | fw, p, [] => (none, fw, p)
  | fw, p, e :: rest =>
    let r := fw.DirectoryWatcher.PollEvent p e.renv e.batch
    match r.1 with
    | none => (none, ⟨r.2.1, fw.Filename⟩, r.2.2)
    | some ev =>
      if ev.Name = fw.Filename then (some ev, ⟨r.2.1, fw.Filename⟩, r.2.2)
      else generic_file_watcher.PollEvent ⟨r.2.1, fw.Filename⟩ r.2.2 rest

/-! ### Helper lemmas -/

theorem updateQ_self (f : Int → List directory_event) (k : Int) (v : List directory_event) : updateQ f k v k = v := by
  simp [updateQ]

theorem updateQ_ne (f : Int → List directory_event) (k x : Int) (v : List directory_event) (h : x ≠ k) : updateQ f k v x = f x := by
  simp [updateQ, h]

/-- The classification table of `ParseEvent`, as one equation on the queue
of the notification's `wd`, plus preservation of every other queue. -/
theorem parseEvent_queue_eq (p : inotify_watch_pool) (ev : inotify_event) :
    (p.ParseEvent ev).events_ ev.wd =
      p.events_ ev.wd ++
        (if ev.mask &&& DeadFlags ≠ 0 then
          [⟨directory_event_type.watch_directory_destroyed, ""⟩]
         else if ev.mask &&& FileCreatedFlags ≠ 0 then
          [⟨directory_event_type.file_created, ev.name⟩]
         else if ev.mask &&& FileDeletedFlags ≠ 0 then
          [⟨directory_event_type.file_deleted, ev.name⟩]
         else if ev.mask &&& FileModifiedFlags ≠ 0 then
          [⟨directory_event_type.file_modified, ev.name⟩]
         else [])
    ∧ ∀ wd, wd ≠ ev.wd → (p.ParseEvent ev).events_ wd = p.events_ wd := by
  constructor
  · by_cases h1 : ev.mask &&& DeadFlags ≠ 0 <;>
      by_cases h2 : ev.mask &&& FileCreatedFlags ≠ 0 <;>
      by_cases h3 : ev.mask &&& FileDeletedFlags ≠ 0 <;>
      by_cases h4 : ev.mask &&& FileModifiedFlags ≠ 0 <;>
      simp [inotify_watch_pool.ParseEvent, h1, h2, h3, h4, updateQ]
  · intro wd hwd
    by_cases h1 : ev.mask &&& DeadFlags ≠ 0 <;>
      by_cases h2 : ev.mask &&& FileCreatedFlags ≠ 0 <;>
      by_cases h3 : ev.mask &&& FileDeletedFlags ≠ 0 <;>
      by_cases h4 : ev.mask &&& FileModifiedFlags ≠ 0 <;>
      simp [inotify_watch_pool.ParseEvent, h1, h2, h3, h4, updateQ, hwd]

theorem parseEvent_append (p : inotify_watch_pool) (ev : inotify_event) (wd : Int) :
    ∃ t, (p.ParseEvent ev).events_ wd = p.events_ wd ++ t := by
  by_cases hw : wd = ev.wd
  · subst hw
    exact ⟨_, (parseEvent_queue_eq p ev).1⟩
  · exact ⟨[], by simp [(parseEvent_queue_eq p ev).2 wd hw]⟩

theorem update_cons (p : inotify_watch_pool) (ev : inotify_event) (rest : List inotify_event) :
    p.Update (ev :: rest) = (p.ParseEvent ev).Update rest := by
  simp [inotify_watch_pool.Update]

theorem update_events_append :
    ∀ (batch : List inotify_event) (p : inotify_watch_pool) (wd : Int),
      ∃ t, (p.Update batch).events_ wd = p.events_ wd ++ t := by
  intro batch
  induction batch with
  | nil => exact fun p wd => ⟨[], by simp [inotify_watch_pool.Update]⟩
  | cons ev rest ih =>
    intro p wd
    obtain ⟨t1, ht1⟩ := parseEvent_append p ev wd
    obtain ⟨t2, ht2⟩ := ih (p.ParseEvent ev) wd
    refine ⟨t1 ++ t2, ?_⟩
    rw [update_cons, ht2, ht1, List.append_assoc]

theorem destroy_events (p : inotify_watch_pool) (id : Int) :
    (p.Destroy id).events_ = p.events_ := by
  unfold inotify_watch_pool.Destroy
  split <;> rfl

/-! ### C1 -/

/-- C1: every raw notification classified by the pool follows the fixed
precedence (dead flags give `watch_directory_destroyed` with empty name
regardless of other bits and of the name, else created with the name,
else deleted, else modified, else nothing is appended), and no other
handle's queue is touched. -/
theorem C1_parse_event_precedence (p : inotify_watch_pool) (ev : inotify_event) :
    (p.ParseEvent ev).events_ ev.wd =
      p.events_ ev.wd ++
        (if ev.mask &&& DeadFlags ≠ 0 then
          [⟨directory_event_type.watch_directory_destroyed, ""⟩]
         else if ev.mask &&& FileCreatedFlags ≠ 0 then
          [⟨directory_event_type.file_created, ev.name⟩]
         else if ev.mask &&& FileDeletedFlags ≠ 0 then
          [⟨directory_event_type.file_deleted, ev.name⟩]
         else if ev.mask &&& FileModifiedFlags ≠ 0 then
          [⟨directory_event_type.file_modified, ev.name⟩]
         else [])
    ∧ ∀ wd, wd ≠ ev.wd → (p.ParseEvent ev).events_ wd = p.events_ wd :=
  parseEvent_queue_eq p ev

/-- C1 witness: a notification carrying both a dead flag and a creation
flag, with a nonempty name, still yields exactly the destroyed event with
empty name. -/
theorem C1_parse_event_precedence_witness :
    (inotify_watch_pool.init.ParseEvent ⟨7, IN_IGNORED ||| IN_CREATE, "x"⟩).events_ 7 =
      [⟨directory_event_type.watch_directory_destroyed, ""⟩]
    ∧ (inotify_watch_pool.init.ParseEvent ⟨7, IN_IGNORED ||| IN_CREATE, "x"⟩).events_ 8 = [] := by
  have h := C1_parse_event_precedence inotify_watch_pool.init ⟨7, IN_IGNORED ||| IN_CREATE, "x"⟩
  refine ⟨?_, ?_⟩
  · have h1 := h.1
    simp only [inotify_watch_pool.init] at h1 ⊢
    rw [h1]
    decide
  · exact h.2 8 (by decide)

/-! ### C6 -/

/-- C6: every pool operation only ever appends to a per-handle queue
(`Create` and `Destroy` leave every queue unchanged, `Update` extends each
queue by a suffix), and `GetEvents` returns the full accumulated queue. -/
theorem C6_queues_append_only (p : inotify_watch_pool) (file : String)
    (h id wd e : Int) (batch : List inotify_event) :
    ((p.Create file h e).2.events_ wd = p.events_ wd)
    ∧ ((p.Destroy id).events_ wd = p.events_ wd)
    ∧ (∃ t, (p.Update batch).events_ wd = p.events_ wd ++ t)
    ∧ (p.GetEvents h = p.events_ h) := by
  refine ⟨rfl, ?_, update_events_append batch p wd, rfl⟩
  rw [destroy_events]

/-! ### C8 -/

/-- C8: `Destroy` on the sentinel handle `-1` is a complete no-op (not
even a kernel call); `Destroy` never touches any queue; a watch whose
registration failed (handle still `-1`) destroys without any pool effect;
and destroying a watch twice just re-marks it dead and never disturbs the
queues. -/
theorem C8_destroy_idempotent (p : inotify_watch_pool) (id wd : Int)
    (w : generic_directory_watch) :
    (p.Destroy (-1) = p)
    ∧ ((p.Destroy id).events_ wd = p.events_ wd)
    ∧ (w.NativeHandle = -1 → w.Destroy p = ({ w with Dead := true }, p))
    ∧ (((w.Destroy p).1.Destroy (w.Destroy p).2).1 = (w.Destroy p).1
        ∧ ((w.Destroy p).1.Destroy (w.Destroy p).2).2.events_ wd = p.events_ wd) := by
  refine ⟨by simp [inotify_watch_pool.Destroy], ?_, ?_, ?_, ?_⟩
  · rw [destroy_events]
  · intro hna
    simp [generic_directory_watch.Destroy, hna, inotify_watch_pool.Destroy]
  · simp [generic_directory_watch.Destroy]
  · simp [generic_directory_watch.Destroy, destroy_events]

/-- C8 witness: a watch that never registered (handle `-1`) destroys as a
silent no-op on the pool. -/
theorem C8_destroy_idempotent_witness :
    (⟨"d", -1, -1, true⟩ : generic_directory_watch).Destroy inotify_watch_pool.init =
      (⟨"d", -1, -1, true⟩, inotify_watch_pool.init) :=
  (C8_destroy_idempotent inotify_watch_pool.init (-1) 0 ⟨"d", -1, -1, true⟩).2.2.1 rfl

/-! ### C10 -/

/-- C10: `GetEvents` is total and default-creates: on a fresh pool every
handle (registered or not, notified or not) yields the empty queue; and a
failed `Create` (handle `-1`) still returns a well-defined result whose
ticket is the current length of the queue keyed by the sentinel `-1` and
whose error is the supplied `errno`. -/
theorem C10_getevents_total (h : Int) (p : inotify_watch_pool)
    (file : String) (e : Int) :
    (inotify_watch_pool.init.GetEvents h = [])
    ∧ ((p.Create file (-1) e).1.Ticket = (p.events_ (-1)).length)
    ∧ ((p.Create file (-1) e).1.Error = e)
    ∧ ((p.Create file (-1) e).1.Handle = -1) := by
  refine ⟨rfl, rfl, ?_, rfl⟩
  simp [inotify_watch_pool.Create]

/-! ### Recreate helpers -/

theorem recreate_success (w : generic_directory_watch) (p : inotify_watch_pool)
    (env : RecreateEnv) (he : (if env.handle = -1 then env.errnoVal else 0) = 0) :
    w.Recreate p env =
      ({ w with Dead := false, NativeHandle := env.handle, Ticket := ((p.events_ env.handle).length : Int) },
        p.Destroy w.NativeHandle) := by
  simp only [generic_directory_watch.Recreate, generic_directory_watch.Destroy,
    inotify_watch_pool.Create, destroy_events, he, if_pos]

theorem recreate_failure (w : generic_directory_watch) (p : inotify_watch_pool)
    (env : RecreateEnv) (he : (if env.handle = -1 then env.errnoVal else 0) ≠ 0) :
    w.Recreate p env = ({ w with Dead := true }, p.Destroy w.NativeHandle) := by
  simp only [generic_directory_watch.Recreate, generic_directory_watch.Destroy,
    inotify_watch_pool.Create]
  rw [if_neg he]

theorem recreate_dead_cases (w : generic_directory_watch) (p : inotify_watch_pool)
    (env : RecreateEnv) :
    ((w.Recreate p env).1.Dead = false ∧ (if env.handle = -1 then env.errnoVal else 0) = 0)
    ∨ ((w.Recreate p env).1.Dead = true ∧ (if env.handle = -1 then env.errnoVal else 0) ≠ 0) := by
  by_cases he : (if env.handle = -1 then env.errnoVal else 0) = 0
  · exact Or.inl ⟨by rw [recreate_success w p env he], he⟩
  · exact Or.inr ⟨by rw [recreate_failure w p env he], he⟩

theorem poll_alive (w : generic_directory_watch) (p : inotify_watch_pool)
    (env : RecreateEnv) (batch : List inotify_event) (ha : w.Dead = false) :
    w.PollEvent p env batch = generic_directory_watch.drainStep w p batch := by
  simp [generic_directory_watch.PollEvent, ha]

/-! ### C3 -/

/-- C3: a `PollEvent` call on a dead watch first attempts recreation
(which itself first destroys the stale handle, then calls `Create`).  If
the watch is still dead afterwards the call returns no event — it is a
total function, so no exception or error can escape; if the recreation
succeeded, the very same call proceeds to the drain body and may deliver
an event. -/
theorem C3_dead_poll_recreates_first (w : generic_directory_watch)
    (p : inotify_watch_pool) (env : RecreateEnv) (batch : List inotify_event)
    (hd : w.Dead = true) :
    ((w.Recreate p env).1.Dead = true →
      w.PollEvent p env batch = (none, (w.Recreate p env).1, (w.Recreate p env).2))
    ∧ ((w.Recreate p env).1.Dead = false →
      w.PollEvent p env batch =
        generic_directory_watch.drainStep (w.Recreate p env).1 (w.Recreate p env).2 batch) := by
  constructor <;> intro h2 <;> simp [generic_directory_watch.PollEvent, hd, h2]

/-- C3 witness: a dead watch polled while `inotify_add_watch` keeps
failing (handle `-1`, errno `13`) yields no event. -/
theorem C3_dead_poll_recreates_first_witness :
    (⟨"d", -1, -1, true⟩ : generic_directory_watch).PollEvent inotify_watch_pool.init ⟨-1, 13⟩ [] =
      (none, ((⟨"d", -1, -1, true⟩ : generic_directory_watch).Recreate inotify_watch_pool.init ⟨-1, 13⟩).1,
        ((⟨"d", -1, -1, true⟩ : generic_directory_watch).Recreate inotify_watch_pool.init ⟨-1, 13⟩).2) :=
  (C3_dead_poll_recreates_first ⟨"d", -1, -1, true⟩ inotify_watch_pool.init ⟨-1, 13⟩ [] rfl).1 rfl

/-! ### C4 -/

/-- C4: `Create` returns as ticket the length, at that moment, of the
queue keyed by the returned handle; hence a successful `Recreate` stores
exactly that length as the watch's fresh cursor (the queues themselves are
untouched by the recreation), and the first event such a watch can
deliver sits at a queue index at least that length — no pre-registration
backlog is ever replayed. -/
theorem C4_fresh_cursor_is_queue_length (p : inotify_watch_pool)
    (file : String) (h e : Int) (w : generic_directory_watch)
    (env env2 : RecreateEnv) (batch : List inotify_event) :
    ((p.Create file h e).1.Ticket = (p.events_ h).length)
    ∧ ((w.Recreate p env).1.Dead = false →
        (w.Recreate p env).1.Ticket = ((p.events_ env.handle).length : Int)
        ∧ (w.Recreate p env).1.NativeHandle = env.handle
        ∧ (w.Recreate p env).2.events_ = p.events_)
    ∧ ((w.Recreate p env).1.Dead = false →
        (p.events_ env.handle).length < 2 ^ 64 →
        ∀ ev, ((w.Recreate p env).1.PollEvent (w.Recreate p env).2 env2 batch).1 = some ev →
          ∃ i, (p.events_ env.handle).length ≤ i ∧
            ev = (((w.Recreate p env).2.Update batch).events_ env.handle).getD i default) := by
  rcases recreate_dead_cases w p env with ⟨hdead, he⟩ | ⟨hdead, he⟩
  · rw [recreate_success w p env he]
    refine ⟨rfl, fun _ => ⟨rfl, rfl, destroy_events p w.NativeHandle⟩, ?_⟩
    intro _ hlen ev hev
    have hsz : sizeT ((p.events_ env.handle).length : Int) = (p.events_ env.handle).length := by
      simp only [sizeT]
      rw [Int.emod_eq_of_lt (by positivity) (by exact_mod_cast hlen)]
      simp
    rw [poll_alive _ _ _ _ rfl] at hev
    simp only [generic_directory_watch.drainStep, inotify_watch_pool.GetEvents] at hev
    by_cases hg : (((p.Destroy w.NativeHandle).Update batch).events_ env.handle).length ≤
        sizeT ((p.events_ env.handle).length : Int)
    · simp [hg] at hev
    · simp only [ge_iff_le] at hev
      rw [if_neg hg] at hev
      exact ⟨sizeT ((p.events_ env.handle).length : Int), le_of_eq hsz.symm,
        (Option.some.inj hev).symm⟩
  · refine ⟨rfl, ?_, ?_⟩ <;> intro hfalse <;> rw [hdead] at hfalse <;> exact absurd hfalse (by simp)

/-- C4 witness: recreating over a pool whose queue at handle `2` already
holds one event gives cursor `1`, and the first delivered event is the one
appended after recreation, at index `1`. -/
theorem C4_fresh_cursor_is_queue_length_witness :
    ((⟨fun w => if w = 2 then [⟨directory_event_type.file_created, "old"⟩] else [], []⟩ : inotify_watch_pool).Create "d" 2 0).1.Ticket = 1
    ∧ ((⟨"d", 1, 5, true⟩ : generic_directory_watch).Recreate ⟨fun w => if w = 2 then [⟨directory_event_type.file_created, "old"⟩] else [], []⟩ ⟨2, 0⟩).1.Ticket = 1 := by
  have h := C4_fresh_cursor_is_queue_length
    (⟨fun w => if w = 2 then [⟨directory_event_type.file_created, "old"⟩] else [], []⟩ : inotify_watch_pool)
    "d" 2 0 ⟨"d", 1, 5, true⟩ ⟨2, 0⟩ ⟨2, 0⟩ []
  refine ⟨?_, ?_⟩
  · rw [h.1]; rfl
  · rw [(h.2.1 (by decide)).1]; rfl

/-! ### C2 -/

theorem drainStep_destroyed (w : generic_directory_watch) (p : inotify_watch_pool)
    (batch : List inotify_event) (ev : directory_event)
    (h1 : (generic_directory_watch.drainStep w p batch).1 = some ev)
    (h2 : ev.Type' = directory_event_type.watch_directory_destroyed) :
    (generic_directory_watch.drainStep w p batch).2.1.Dead = true := by
  simp only [generic_directory_watch.drainStep] at h1 ⊢
  by_cases hg : sizeT w.Ticket ≥ ((p.Update batch).GetEvents w.NativeHandle).length
  · rw [if_pos hg] at h1
    exact absurd h1 (by simp)
  · rw [if_neg hg] at h1
    rw [if_neg hg]
    have he := Option.some.inj h1
    show (if (((p.Update batch).GetEvents w.NativeHandle).getD (sizeT w.Ticket) default).Type' =
        directory_event_type.watch_directory_destroyed then true else w.Dead) = true
    rw [he, h2]
    simp

/-- C2: whenever a `PollEvent` call returns an event of type
`watch_directory_destroyed`, the event is still delivered to the caller
(the call returns it) and the watch is marked dead as a postcondition of
the same call — recreation is left to the next call. -/
theorem C2_destroyed_event_marks_dead (w : generic_directory_watch)
    (p : inotify_watch_pool) (env : RecreateEnv) (batch : List inotify_event)
    (ev : directory_event)
    (h1 : (w.PollEvent p env batch).1 = some ev)
    (h2 : ev.Type' = directory_event_type.watch_directory_destroyed) :
    (w.PollEvent p env batch).2.1.Dead = true := by
  simp only [generic_directory_watch.PollEvent] at h1 ⊢
  by_cases hd : ((if w.Dead then w.Recreate p env else (w, p)).1).Dead = true
  · rw [if_pos hd] at h1
    exact absurd h1 (by simp)
  · rw [if_neg hd] at h1
    rw [if_neg hd]
    exact drainStep_destroyed _ _ _ _ h1 h2

/-- C2 witness: a live watch whose queue holds a destroyed event delivers
it and comes out dead. -/
theorem C2_destroyed_event_marks_dead_witness :
    ((⟨"d", 5, 0, false⟩ : generic_directory_watch).PollEvent
        ⟨fun w => if w = 5 then [⟨directory_event_type.watch_directory_destroyed, ""⟩] else [], []⟩
        ⟨-1, 13⟩ []).2.1.Dead = true :=
  C2_destroyed_event_marks_dead ⟨"d", 5, 0, false⟩
    ⟨fun w => if w = 5 then [⟨directory_event_type.watch_directory_destroyed, ""⟩] else [], []⟩
    ⟨-1, 13⟩ [] ⟨directory_event_type.watch_directory_destroyed, ""⟩ rfl rfl

/-! ### C5 -/

/-- C5 counterexample: a `PollEvent` call that returns false (no event)
can still change — and decrease — the ticket: a dead watch with stale
ticket `5` whose recreation succeeds on a fresh handle resets the ticket
to the new queue length `0` and then reports no event. -/
theorem C5_ticket_reset_counterexample :
    ((⟨"d", 1, 5, true⟩ : generic_directory_watch).PollEvent inotify_watch_pool.init ⟨2, 0⟩ []).1 = none
    ∧ ((⟨"d", 1, 5, true⟩ : generic_directory_watch).PollEvent inotify_watch_pool.init ⟨2, 0⟩ []).2.1.Ticket = 0
    ∧ ((5 : Int) ≠ 0) :=
  ⟨rfl, rfl, by decide⟩

/-- C5 amended: for every `PollEvent` call that begins with the watch
alive (no recreation in the call), a call returning false leaves the
watch — ticket included — unchanged, and a call returning true advances
the ticket by exactly one and returns the queue entry at the pre-advance
ticket position (so within one registration the ticket never decreases
and never skips an entry); a call that begins dead and recreates
successfully instead resets the ticket to the new registration's queue
length. -/
theorem C5_alive_ticket_discipline (w : generic_directory_watch)
    (p : inotify_watch_pool) (env : RecreateEnv) (batch : List inotify_event)
    (halive : w.Dead = false) (h0 : 0 ≤ w.Ticket) (hlt : w.Ticket < 2 ^ 64) :
    ((w.PollEvent p env batch).1 = none → (w.PollEvent p env batch).2.1 = w)
    ∧ (∀ ev, (w.PollEvent p env batch).1 = some ev →
        (w.PollEvent p env batch).2.1.Ticket = w.Ticket + 1
        ∧ w.Ticket.toNat < ((p.Update batch).GetEvents w.NativeHandle).length
        ∧ ev = ((p.Update batch).GetEvents w.NativeHandle).getD w.Ticket.toNat default) := by
  have hsz : sizeT w.Ticket = w.Ticket.toNat := by
    simp only [sizeT]
    rw [Int.emod_eq_of_lt h0 hlt]
  rw [poll_alive w p env batch halive]
  simp only [generic_directory_watch.drainStep]
  by_cases hg : sizeT w.Ticket ≥ ((p.Update batch).GetEvents w.NativeHandle).length
  · rw [if_pos hg]
    exact ⟨fun _ => rfl, fun ev hev => absurd hev (by simp)⟩
  · rw [if_neg hg]
    refine ⟨fun hnone => absurd hnone (by simp), fun ev hev => ?_⟩
    have he := Option.some.inj hev
    refine ⟨rfl, ?_, ?_⟩
    · rw [← hsz]
      omega
    · rw [← he, hsz]

/-- C5 amended witness: an alive watch with ticket `0` over a one-event
queue delivers that event with ticket advancing to `1`. -/
theorem C5_alive_ticket_discipline_witness :
    (((⟨"d", 1, 0, false⟩ : generic_directory_watch).PollEvent
        ⟨fun w => if w = 1 then [⟨directory_event_type.file_created, "a"⟩] else [], []⟩ ⟨-1, 1⟩ []).1 = none →
      ((⟨"d", 1, 0, false⟩ : generic_directory_watch).PollEvent
        ⟨fun w => if w = 1 then [⟨directory_event_type.file_created, "a"⟩] else [], []⟩ ⟨-1, 1⟩ []).2.1 = ⟨"d", 1, 0, false⟩)
    ∧ (∀ ev, ((⟨"d", 1, 0, false⟩ : generic_directory_watch).PollEvent
        ⟨fun w => if w = 1 then [⟨directory_event_type.file_created, "a"⟩] else [], []⟩ ⟨-1, 1⟩ []).1 = some ev →
        ((⟨"d", 1, 0, false⟩ : generic_directory_watch).PollEvent
          ⟨fun w => if w = 1 then [⟨directory_event_type.file_created, "a"⟩] else [], []⟩ ⟨-1, 1⟩ []).2.1.Ticket = (0 : Int) + 1
        ∧ (Int.toNat 0) < (((⟨fun w => if w = 1 then [⟨directory_event_type.file_created, "a"⟩] else [], []⟩ : inotify_watch_pool).Update []).GetEvents 1).length
        ∧ ev = (((⟨fun w => if w = 1 then [⟨directory_event_type.file_created, "a"⟩] else [], []⟩ : inotify_watch_pool).Update []).GetEvents 1).getD (Int.toNat 0) default) :=
  C5_alive_ticket_discipline ⟨"d", 1, 0, false⟩
    ⟨fun w => if w = 1 then [⟨directory_event_type.file_created, "a"⟩] else [], []⟩
    ⟨-1, 1⟩ [] rfl (by decide) (by decide)

/-! ### C7 -/

/-- C7 counterexample: a file watcher constructed from the path `"d/"`
has the empty string as its configured filename, and a
`watch_directory_destroyed` event from the inner directory watch (whose
name is empty) then passes the name filter and is returned to the caller
instead of being discarded. -/
theorem C7_empty_filename_counterexample :
    (generic_file_watcher.PollEvent
        (generic_file_watcher.construct "d/" inotify_watch_pool.init ⟨3, 0⟩).1
        (generic_file_watcher.construct "d/" inotify_watch_pool.init ⟨3, 0⟩).2
        [⟨⟨-1, 1⟩, [⟨3, IN_IGNORED, ""⟩]⟩]).1
      = some ⟨directory_event_type.watch_directory_destroyed, ""⟩
    ∧ (generic_file_watcher.construct "d/" inotify_watch_pool.init ⟨3, 0⟩).1.Filename = "" :=
  ⟨by decide, by decide⟩

/-- C7 amended: a file watcher's `PollEvent` never returns an event whose
name differs from the configured filename, discarding non-matching inner
events until a match or exhaustion; consequently, whenever the configured
filename is nonempty, an empty-named event — in particular every
`watch_directory_destroyed` event the pool's classifier produces — is
always discarded and never returned.  (A watcher whose configured
filename is empty, e.g. built from a path ending in a separator, does
return such events.) -/
theorem C7_name_filter (fw : generic_file_watcher) (p : inotify_watch_pool)
    (envs : List PollEnv) (ev : directory_event)
    (h : (generic_file_watcher.PollEvent fw p envs).1 = some ev) :
    ev.Name = fw.Filename ∧ (fw.Filename ≠ "" → ev.Name ≠ "") := by
  suffices hname : ev.Name = fw.Filename by
    refine ⟨hname, fun hne => ?_⟩
    rw [hname]
    exact hne
  induction envs generalizing fw p with
  | nil => simp [generic_file_watcher.PollEvent] at h
  | cons e rest ih =>
    simp only [generic_file_watcher.PollEvent] at h
    cases hr : (fw.DirectoryWatcher.PollEvent p e.renv e.batch).1 with
    | none =>
      rw [hr] at h
      simp at h
    | some ev0 =>
      rw [hr] at h
      by_cases hn : ev0.Name = fw.Filename
      · simp only [if_pos hn] at h
        simp at h
        rw [← h]
        exact hn
      · simp only [if_neg hn] at h
        exact ih ⟨(fw.DirectoryWatcher.PollEvent p e.renv e.batch).2.1, fw.Filename⟩
          (fw.DirectoryWatcher.PollEvent p e.renv e.batch).2.2 h

/-- C7 amended witness: a watcher for filename `"a"` skips an event named
`"b"` and returns the later event named `"a"`. -/
theorem C7_name_filter_witness :
    (generic_file_watcher.PollEvent
        ⟨⟨"d", 1, 0, false⟩, "a"⟩
        ⟨fun w => if w = 1 then [⟨directory_event_type.file_created, "b"⟩, ⟨directory_event_type.file_created, "a"⟩] else [], []⟩
        [⟨⟨-1, 1⟩, []⟩, ⟨⟨-1, 1⟩, []⟩]).1 = some ⟨directory_event_type.file_created, "a"⟩
    ∧ (⟨directory_event_type.file_created, "a"⟩ : directory_event).Name = "a"
    ∧ ("a" ≠ "" → (⟨directory_event_type.file_created, "a"⟩ : directory_event).Name ≠ "") := by
  have h1 : (generic_file_watcher.PollEvent
      ⟨⟨"d", 1, 0, false⟩, "a"⟩
      ⟨fun w => if w = 1 then [⟨directory_event_type.file_created, "b"⟩, ⟨directory_event_type.file_created, "a"⟩] else [], []⟩
      [⟨⟨-1, 1⟩, []⟩, ⟨⟨-1, 1⟩, []⟩]).1 = some ⟨directory_event_type.file_created, "a"⟩ := by decide
  have h2 := C7_name_filter
      ⟨⟨"d", 1, 0, false⟩, "a"⟩
      ⟨fun w => if w = 1 then [⟨directory_event_type.file_created, "b"⟩, ⟨directory_event_type.file_created, "a"⟩] else [], []⟩
      [⟨⟨-1, 1⟩, []⟩, ⟨⟨-1, 1⟩, []⟩] ⟨directory_event_type.file_created, "a"⟩ h1
  exact ⟨h1, h2.1, h2.2⟩

/-! ### C9 -/

theorem sepScan_shift : ∀ (l : List Char) (acc : Nat),
    sepScan l acc = (sepScan l 0).map (fun d => d + acc) := by
  intro l
  induction l with
  | nil => intro acc; simp [sepScan]
  | cons c rest ih =>
    intro acc
    by_cases h : isSepChar c = true
    · simp [sepScan, h]
    · simp only [sepScan, if_neg h]
      rw [ih (acc + 1), ih 1]
      cases sepScan rest 0 with
      | none => simp
      | some d =>
        simp only [Option.map_some']
        congr 1
        omega

theorem sepScan_zero_some : ∀ (l : List Char) (d : Nat), sepScan l 0 = some d →
    ∃ l1 c l2, l = l1 ++ c :: l2 ∧ l1.length = d ∧ isSepChar c = true
      ∧ ∀ x ∈ l1, isSepChar x = false := by
  intro l
  induction l with
  | nil => intro d h; simp [sepScan] at h
  | cons a rest ih =>
    intro d h
    by_cases ha : isSepChar a = true
    · simp only [sepScan, if_pos ha] at h
      have hd : (0 : Nat) = d := Option.some.inj h
      exact ⟨[], a, rest, by simp, by simp [← hd], ha, by simp⟩
    · simp only [sepScan, if_neg ha] at h
      rw [sepScan_shift rest 1] at h
      cases hs : sepScan rest 0 with
      | none =>
        rw [hs] at h
        simp at h
      | some d0 =>
        rw [hs] at h
        simp only [Option.map_some'] at h
        have hd : d0 + 1 = d := Option.some.inj h
        obtain ⟨l1, c, l2, hl, hlen, hc, hns⟩ := ih d0 hs
        refine ⟨a :: l1, c, l2, by simp [hl], by rw [List.length_cons, hlen]; omega, hc, ?_⟩
        intro x hx
        rcases List.mem_cons.mp hx with hx | hx
        · rw [hx]
          cases hb : isSepChar a with
          | false => rfl
          | true => exact absurd hb ha
        · exact hns x hx

theorem sepScan_eq_none : ∀ (l : List Char) (acc : Nat),
    (∀ x ∈ l, isSepChar x = false) → sepScan l acc = none := by
  intro l
  induction l with
  | nil => intro acc _; rfl
  | cons a rest ih =>
    intro acc hall
    have ha := hall a (by simp)
    have hcond : ¬(isSepChar a = true) := by simp [ha]
    simp only [sepScan, if_neg hcond]
    exact ih (acc + 1) (fun x hx => hall x (List.mem_cons_of_mem a hx))

theorem sepScan_none_all : ∀ (l : List Char) (acc : Nat), sepScan l acc = none →
    ∀ x ∈ l, isSepChar x = false := by
  intro l
  induction l with
  | nil => intro acc _ x hx; simp at hx
  | cons a rest ih =>
    intro acc h x hx
    by_cases ha : isSepChar a = true
    · simp only [sepScan, if_pos ha] at h
      exact absurd h (by simp)
    · simp only [sepScan, if_neg ha] at h
      rcases List.mem_cons.mp hx with hx | hx
      · rw [hx]
        cases hb : isSepChar a with
        | false => rfl
        | true => exact absurd hb ha
      · exact ih (acc + 1) h x hx

theorem GetDirectory_eq_some (s : String) (d : Nat)
    (h : sepScan s.data.reverse 0 = some d) :
    generic_file_watcher.GetDirectory s = String.mk (s.data.take (s.data.length - d)) := by
  unfold generic_file_watcher.GetDirectory
  rw [h]

theorem GetFilename_eq_some (s : String) (d : Nat)
    (h : sepScan s.data.reverse 0 = some d) :
    generic_file_watcher.GetFilename s = String.mk (s.data.drop (s.data.length - d)) := by
  unfold generic_file_watcher.GetFilename
  rw [h]

theorem GetDirectory_eq_none (s : String)
    (h : sepScan s.data.reverse 0 = none) :
    generic_file_watcher.GetDirectory s = "" := by
  unfold generic_file_watcher.GetDirectory
  rw [h]

theorem GetFilename_eq_none (s : String)
    (h : sepScan s.data.reverse 0 = none) :
    generic_file_watcher.GetFilename s = "" := by
  unfold generic_file_watcher.GetFilename
  rw [h]

/-- C9: for every path containing a separator, `GetDirectory` and
`GetFilename` split it exactly: their concatenation restores the path,
`GetDirectory` ends with a separator (necessarily the last one, since the
filename part that follows is separator-free), and `GetFilename` contains
no separator; for every path with no separator both return the empty
string. -/
theorem C9_path_split_round_trip (p : String) :
    ((∃ c ∈ p.data, isSepChar c = true) →
      generic_file_watcher.GetDirectory p ++ generic_file_watcher.GetFilename p = p
      ∧ (∃ c, (generic_file_watcher.GetDirectory p).data.getLast? = some c ∧ isSepChar c = true)
      ∧ (∀ x ∈ (generic_file_watcher.GetFilename p).data, isSepChar x = false))
    ∧ ((∀ c ∈ p.data, isSepChar c = false) →
      generic_file_watcher.GetDirectory p = "" ∧ generic_file_watcher.GetFilename p = "") := by
  obtain ⟨pd⟩ := p
  constructor
  · rintro ⟨c0, hc0mem, hc0⟩
    cases hs : sepScan pd.reverse 0 with
    | none =>
      have hall := sepScan_none_all pd.reverse 0 hs c0 (List.mem_reverse.mpr hc0mem)
      rw [hall] at hc0
      cases hc0
    | some d =>
      obtain ⟨l1, c, l2, hl, hlen, hc, hns⟩ := sepScan_zero_some pd.reverse d hs
      have hpd : pd = (l2.reverse ++ [c]) ++ l1.reverse := by
        calc pd = pd.reverse.reverse := (List.reverse_reverse pd).symm
          _ = (l1 ++ c :: l2).reverse := by rw [hl]
          _ = (c :: l2).reverse ++ l1.reverse := List.reverse_append _ _
          _ = (l2.reverse ++ [c]) ++ l1.reverse := by rw [List.reverse_cons]
      have hlen2 : (l2.reverse ++ [c]).length = ((l2.reverse ++ [c]) ++ l1.reverse).length - d := by
        simp [hlen]
        omega
      have htake : pd.take (pd.length - d) = l2.reverse ++ [c] := by
        rw [hpd]
        exact List.take_left' hlen2
      have hdrop : pd.drop (pd.length - d) = l1.reverse := by
        rw [hpd]
        exact List.drop_left' hlen2
      refine ⟨?_, ?_, ?_⟩
      · rw [GetDirectory_eq_some ⟨pd⟩ d hs, GetFilename_eq_some ⟨pd⟩ d hs]
        show String.mk (pd.take (pd.length - d) ++ pd.drop (pd.length - d)) = String.mk pd
        rw [List.take_append_drop]
      · rw [GetDirectory_eq_some ⟨pd⟩ d hs]
        refine ⟨c, ?_, hc⟩
        show (pd.take (pd.length - d)).getLast? = some c
        rw [htake]
        exact List.getLast?_concat _
      · rw [GetFilename_eq_some ⟨pd⟩ d hs]
        intro x hx
        have hx2 : x ∈ l1.reverse := by
          rw [← hdrop]
          exact hx
        exact hns x (List.mem_reverse.mp hx2)
  · intro hall
    have hs := sepScan_eq_none pd.reverse 0
      (fun x hx => hall x (List.mem_reverse.mp hx))
    exact ⟨GetDirectory_eq_none ⟨pd⟩ hs, GetFilename_eq_none ⟨pd⟩ hs⟩

/-- C9 witness: the split of the path `"a/b"`. -/
theorem C9_path_split_round_trip_witness :
    generic_file_watcher.GetDirectory "a/b" ++ generic_file_watcher.GetFilename "a/b" = "a/b"
    ∧ (∃ c, (generic_file_watcher.GetDirectory "a/b").data.getLast? = some c ∧ isSepChar c = true)
    ∧ (∀ x ∈ (generic_file_watcher.GetFilename "a/b").data, isSepChar x = false) :=
  (C9_path_split_round_trip "a/b").1 ⟨'/', by decide, by decide⟩
